import Mathlib

/-!
Shallow embedding of the common-cpp transport core: the thread-safe queue
(QueueThreadSafe, QueueThreadSafeExt), the TCP client retry loops
(TCPClient::SockSend / SockRecv), and the TCP server
(TCPServer::SockAccept / SockSend / SockRecv / SockClose).

Modelling conventions:
  - A std::queue of T is a Lean List T (front = list head, push appends at
    the back).  Operations that are undefined behaviour on an empty
    std::queue (front, back, pop) are modelled as Option-returning
    functions yielding none on the empty list: none marks the reachable
    error branch of the underlying container, not a queue-level check.
  - Machine syscalls (send, recv, select, accept) are modelled by an
    oracle: a list of results the OS hands the loop, consumed in order.
  - Thrown C++ exceptions become distinct outcome constructors; log lines
    become a List String carried in the result.
  - A duration<float> timeout is modelled by its total count of
    microseconds (a Nat); the source converts it to a timeval with
    tv_sec = duration_cast to seconds (truncation) and
    tv_usec = duration_cast to microseconds modulo 1000000.
-/

/-- Timeval computed by the source at every select call site:
tv_sec is the truncated whole-second count, tv_usec the microsecond
count modulo one million, both from the same timeout value. -/
def tvOf (us : Nat) : Nat × Nat := (us / 1000000, us % 1000000)

/- ===================== QueueThreadSafe (queue_thread_safe.hpp) ========= -/

/-- Model of std::queue front: undefined behaviour on empty is the none
branch; otherwise the head element. -/
def stdQueueFront {α : Type} (q : List α) : Option α :=
  match q with
  | [] => none
  | x :: _ => some x

/-- Model of std::queue back: undefined behaviour on empty is the none
branch; otherwise the last element. -/
def stdQueueBack {α : Type} (q : List α) : Option α :=
  q.getLast?

/-- Model of std::queue pop: undefined behaviour on empty is the none
branch; otherwise removes the head. -/
def stdQueuePop {α : Type} (q : List α) : Option (List α) :=
  match q with
  | [] => none
  | _ :: t => some t

/-- QueueThreadSafe front: takes the lock and forwards to the
underlying std::queue front with no emptiness check. -/
def QueueThreadSafe.front {α : Type} (q : List α) : Option α :=
  stdQueueFront q

/-- QueueThreadSafe back: takes the lock and forwards to the underlying
std::queue back with no emptiness check. -/
def QueueThreadSafe.back {α : Type} (q : List α) : Option α :=
  stdQueueBack q

/-- QueueThreadSafe pop: takes the lock and forwards to the underlying
std::queue pop with no emptiness check. -/
def QueueThreadSafe.pop {α : Type} (q : List α) : Option (List α) :=
  stdQueuePop q

/-- QueueThreadSafe empty: snapshot read under the lock. -/
def QueueThreadSafe.emptyq {α : Type} (q : List α) : Bool :=
  q.isEmpty

/-- QueueThreadSafe size: snapshot read under the lock. -/
def QueueThreadSafe.size {α : Type} (q : List α) : Nat :=
  q.length

/-- QueueThreadSafe push: appends at the back under the lock. -/
def QueueThreadSafe.push {α : Type} (q : List α) (v : α) : List α :=
  q ++ [v]

/- ================ QueueThreadSafeExt (QueueThreadSafeExt.hpp) ========== -/

/-- QueueThreadSafeExt frontAndPop: under one lock_guard acquisition,
reads the front element then pops it.  Both inner container calls are
undefined behaviour on an empty queue, hence none there. -/
def QueueThreadSafeExt.frontAndPop {α : Type} (q : List α) : Option (α × List α) :=
  match stdQueueFront q, stdQueuePop q with
  | some x, some t => some (x, t)
  | _, _ => none

/-- QueueThreadSafeExt push: appends under the lock, sets the pending
push flag and notifies one waiter.  In the sequential model the flag and
notification are represented by the push-batch oracle of sizeWait. -/
def QueueThreadSafeExt.push {α : Type} (q : List α) (v : α) : List α :=
  q ++ [v]

/-- Push batch: the group of elements pushed between two wakes of the
waiting thread, in push order.  A wake passes the wait predicate only
when the pending-push flag is set; a batch is therefore normally
nonempty, but an empty batch is allowed to model a stale flag (the
member is never initialised by the source, and the flag can be left set
by pushes that happened before the wait began). -/
def totalPushes {α : Type} (bs : List (List α)) : Nat :=
  (bs.map List.length).sum

/-- Model of the sizeWait of
src/common/thread_safe_container/QueueThreadSafeExt.hpp: a while loop
that first checks size against the request, and while short waits for
the pending-push edge, appends the pushes delivered by that wake,
clears the flag and re-checks.  none models the waiter still blocked
after the oracle of wakes is exhausted.  On exit it returns the size
observed at wake time together with the queue contents it observed. -/
def QueueThreadSafeExt.sizeWaitW {α : Type} (cElementReq : Nat)
    (q : List α) : List (List α) → Option (Nat × List α)
  | [] =>
    if q.length < cElementReq then none else some (q.length, q)
  | b :: rest =>
    if q.length < cElementReq then
      QueueThreadSafeExt.sizeWaitW cElementReq (q ++ b) rest
    else some (q.length, q)

/-- Model of the sizeWait of
src/thread_safe_container/QueueThreadSafeExt.hpp: a do-while loop that
always waits for at least one pending-push edge before its first size
check, then re-checks after each wake. -/
def QueueThreadSafeExt.sizeWaitDo {α : Type} (cElementReq : Nat)
    (q : List α) : List (List α) → Option (Nat × List α)
  | [] => none
  | b :: rest =>
    let q2 := q ++ b
    if q2.length < cElementReq then
      QueueThreadSafeExt.sizeWaitDo cElementReq q2 rest
    else some (q2.length, q2)

/-- One atomic frontAndPop step on the shared queue: the result handed
to the calling thread and the queue left behind.  On an empty queue the
container behaviour is undefined (none) and the queue is left as is. -/
def fapStep {α : Type} (q : List α) : Option α × List α :=
  match QueueThreadSafeExt.frontAndPop q with
  | none => (none, q)
  | some (x, t) => (some x, t)

/-- Two threads A and B each run one frontAndPop.  Because the whole
body runs under a single lock_guard acquisition, any interleaving is
one of the two serial orders; aFirst says whether thread A holds the
lock first.  Returns the value A got, the value B got, and the final
queue. -/
def runTwoFAP {α : Type} (q : List α) (aFirst : Bool) :
    Option α × Option α × List α :=
  let s1 := fapStep q
  let s2 := fapStep s1.2
  if aFirst then (s1.1, s2.1, s2.2) else (s2.1, s1.1, s2.2)

/- ===================== TCP transfer loops (tcp_client.cpp) ============= -/

/-- Result of one non-blocking send or recv syscall: err is the -1
return, ok n a transfer of n bytes (0 included: on recv this is the
orderly peer shutdown signal). -/
inductive CallRes : Type
  | err : CallRes
  | ok : Nat → CallRes
deriving DecidableEq, Repr

/-- Result of one select readiness wait: rc = 0 (timeout), rc = -1
(error), or ready. -/
inductive SelRes : Type
  | timeout : SelRes
  | selErr : SelRes
  | ready : SelRes
deriving DecidableEq, Repr

/-- Oracle entry for one retry-loop iteration: the send/recv syscall
result, and the select result used if the loop is still short after
that call. -/
structure XferEvent : Type where
  res : CallRes
  sel : SelRes
deriving DecidableEq, Repr

/-- Outcome of a send or recv method.  Each error constructor stands
for one throw site of the source: notConnected for the SockSend or
SockRecv called-before-connection throw of the client, notListening for
the called-before-listen throw of the server, osErr for a syscall or
select failure throw, timedOut for the select rc = 0 throw.  blocked
means the loop is still running with the oracle exhausted (no events
left for the next syscall). -/
inductive XferOutcome : Type
  | ok : XferOutcome
  | notConnected : XferOutcome
  | notListening : XferOutcome
  | osErr : XferOutcome
  | timedOut : XferOutcome
  | blocked : XferOutcome
deriving DecidableEq, Repr

/-- Result of a client transfer method: the outcome, the number of
send/recv syscalls issued on the descriptor, and the timeval handed to
each select call, in order. -/
structure XferResult : Type where
  outcome : XferOutcome
  calls : Nat
  selArgs : List (Nat × Nat)
deriving DecidableEq, Repr

/-- The while loop of TCPClient SockSend: while the running offset
cb is short of cb_data_last, issue one send for the remainder (err
return throws), add the returned count, and if still short run select
with the timeval rebuilt from the same original timeout (rc = 0 throws
timeout, rc = -1 throws).  The oracle list supplies one XferEvent per
iteration. -/
def sendGo (cbLast us : Nat) : Nat → List XferEvent → XferResult
  | cb, [] =>
    if cb < cbLast then ⟨.blocked, 0, []⟩ else ⟨.ok, 0, []⟩
  | cb, e :: rest =>
    if cb < cbLast then
      match e.res with
      | .err => ⟨.osErr, 1, []⟩
      | .ok n =>
        if cb + n < cbLast then
          match e.sel with
          | .timeout => ⟨.timedOut, 1, [tvOf us]⟩
          | .selErr => ⟨.osErr, 1, [tvOf us]⟩
          | .ready =>
            let r := sendGo cbLast us (cb + n) rest
            ⟨r.outcome, r.calls + 1, tvOf us :: r.selArgs⟩
        else ⟨.ok, 1, []⟩
    else ⟨.ok, 0, []⟩

/-- The while loop of TCPClient SockRecv, identical in structure to the
send loop: a recv returning 0 bytes is added to the offset like any
other count (there is no peer-closed branch in the source), and the
select timeval is rebuilt from the same original timeout every
iteration. -/
def recvGo (cbLast us : Nat) : Nat → List XferEvent → XferResult
  | cb, [] =>
    if cb < cbLast then ⟨.blocked, 0, []⟩ else ⟨.ok, 0, []⟩
  | cb, e :: rest =>
    if cb < cbLast then
      match e.res with
      | .err => ⟨.osErr, 1, []⟩
      | .ok n =>
        if cb + n < cbLast then
          match e.sel with
          | .timeout => ⟨.timedOut, 1, [tvOf us]⟩
          | .selErr => ⟨.osErr, 1, [tvOf us]⟩
          | .ready =>
            let r := recvGo cbLast us (cb + n) rest
            ⟨r.outcome, r.calls + 1, tvOf us :: r.selArgs⟩
        else ⟨.ok, 1, []⟩
    else ⟨.ok, 0, []⟩

/-- TCPClient SockSend: throws called-before-connection unless the
connected flag is set (before any syscall), then runs the send retry
loop from offset 0. -/
def TCPClient.SockSend (f_connected : Bool) (cbLast us : Nat)
    (evs : List XferEvent) : XferResult :=
  if f_connected = false then ⟨.notConnected, 0, []⟩
  else sendGo cbLast us 0 evs

/-- TCPClient SockRecv: throws called-before-connection unless the
connected flag is set (before any syscall), then runs the recv retry
loop from offset 0. -/
def TCPClient.SockRecv (f_connected : Bool) (cbLast us : Nat)
    (evs : List XferEvent) : XferResult :=
  if f_connected = false then ⟨.notConnected, 0, []⟩
  else recvGo cbLast us 0 evs

/- ===================== TCPServer (tcp_server.cpp / .hpp) =============== -/

/-- The fixed client cap kCClientLast of tcp_server.cpp. -/
def kCClientLast : Nat := 12

/-- Result of a server broadcast method: outcome, syscall count, select
timevals, and the log lines emitted. -/
structure SrvResult : Type where
  outcome : XferOutcome
  calls : Nat
  selArgs : List (Nat × Nat)
  logs : List String
deriving DecidableEq, Repr

/-- The per-client broadcast of TCPServer SockSend: run the send retry
loop for each client descriptor in order; the first failing client
aborts the whole broadcast (its throw propagates).  The oracle supplies
one event list per client. -/
def serverSendClients (cbLast us : Nat) :
    List Int → List (List XferEvent) → XferResult
  | [], _ => ⟨.ok, 0, []⟩
  | _ :: cls, evss =>
    let r := sendGo cbLast us 0 (evss.headD [])
    if r.outcome = .ok then
      let r2 := serverSendClients cbLast us cls evss.tail
      ⟨r2.outcome, r.calls + r2.calls, r.selArgs ++ r2.selArgs⟩
    else ⟨r.outcome, r.calls, r.selArgs⟩

/-- The per-client loop of the TCPServer SockRecv template: for each
client, allocate one record of sizeof T bytes and run the recv retry
loop for it; the first failing client aborts the whole call. -/
def serverRecvClients (cbT us : Nat) :
    List Int → List (List XferEvent) → XferResult
  | [], _ => ⟨.ok, 0, []⟩
  | _ :: cls, evss =>
    let r := recvGo cbT us 0 (evss.headD [])
    if r.outcome = .ok then
      let r2 := serverRecvClients cbT us cls evss.tail
      ⟨r2.outcome, r.calls + r2.calls, r.selArgs ++ r2.selArgs⟩
    else ⟨r.outcome, r.calls, r.selArgs⟩

/-- TCPServer SockSend: throws called-before-listen when the listening
descriptor is the -1 sentinel; with zero clients logs a warning and
returns normally; otherwise broadcasts to every client. -/
def TCPServer.SockSend (fd_socket_server : Int)
    (rg_fd_socket_client : List Int) (cbLast us : Nat)
    (evss : List (List XferEvent)) : SrvResult :=
  if fd_socket_server = -1 then ⟨.notListening, 0, [], []⟩
  else if rg_fd_socket_client.length = 0 then
    ⟨.ok, 0, [], ["SockSend() called with no clients!"]⟩
  else
    let r := serverSendClients cbLast us rg_fd_socket_client evss
    ⟨r.outcome, r.calls, r.selArgs, []⟩

/-- TCPServer SockRecv template: throws called-before-listen when the
listening descriptor is the -1 sentinel; with zero clients logs a
warning and returns normally; otherwise receives one sizeof T record
from every client. -/
def TCPServer.SockRecv (fd_socket_server : Int)
    (rg_fd_socket_client : List Int) (cbT us : Nat)
    (evss : List (List XferEvent)) : SrvResult :=
  if fd_socket_server = -1 then ⟨.notListening, 0, [], []⟩
  else if rg_fd_socket_client.length = 0 then
    ⟨.ok, 0, [], ["SockRecv() called with no clients!"]⟩
  else
    let r := serverRecvClients cbT us rg_fd_socket_client evss
    ⟨r.outcome, r.calls, r.selArgs, []⟩

/-- Observation the accept loop makes in one iteration: flagCleared
when the iteration reads fd_f_accepting_ as false (close cleared it),
conn when select reports the listener ready and accept returns a new
client descriptor and address, selTimeout and selErr for select
returning 0 or -1, accErr for accept returning -1. -/
inductive AcceptEvent : Type
  | flagCleared : AcceptEvent
  | conn : Int → Nat → AcceptEvent
  | selTimeout : AcceptEvent
  | selErr : AcceptEvent
  | accErr : AcceptEvent
deriving DecidableEq, Repr

/-- How the accept loop ended: finished when its while condition went
false (flag cleared or counter past the cap), errored when a throw
escaped the loop body (select or accept failure, uncatchable in the
background thread), stillRunning when the oracle is exhausted while the
loop would keep waiting. -/
inductive AcceptOutcome : Type
  | finished : AcceptOutcome
  | errored : AcceptOutcome
  | stillRunning : AcceptOutcome
deriving DecidableEq, Repr

/-- State of the accept loop when it stops: the client descriptor list,
the aligned client address list, the final value of the local counter
c_client, the way the loop ended, and the value of fd_f_accepting_
afterwards (the loop clears it only on normal exit). -/
structure AcceptResult : Type where
  clients : List Int
  addrs : List Nat
  cClient : Nat
  outcome : AcceptOutcome
  acceptingAfter : Bool
deriving DecidableEq, Repr

/-- The while loop of TCPServer SockAccept: the condition is
fd_f_accepting_ AND c_client LESS-OR-EQUAL kCClientLast (the source
comparison is not strict); each pass blocks in select with no timeout,
accepts one connection, appends its address and descriptor to the two
aligned vectors and increments c_client.  On normal exit the flag is
cleared.  The cap is a parameter here so the loop can be examined at
small cap values as well as at the source constant 12. -/
def sockAcceptGo (maxC : Nat) :
    Nat → List Int → List Nat → List AcceptEvent → AcceptResult
  | c, cls, ads, [] =>
    if c ≤ maxC then ⟨cls, ads, c, .stillRunning, true⟩
    else ⟨cls, ads, c, .finished, false⟩
  | c, cls, ads, e :: rest =>
    if c ≤ maxC then
      match e with
      | .flagCleared => ⟨cls, ads, c, .finished, false⟩
      | .conn fdc a =>
        sockAcceptGo maxC (c + 1) (cls ++ [fdc]) (ads ++ [a]) rest
      | .selTimeout => ⟨cls, ads, c, .errored, true⟩
      | .selErr => ⟨cls, ads, c, .errored, true⟩
      | .accErr => ⟨cls, ads, c, .errored, true⟩
    else ⟨cls, ads, c, .finished, false⟩

/-- TCPServer SockAccept as started by SockListen: the loop begins with
c_client = 0 and the two client vectors empty. -/
def TCPServer.SockAccept (maxC : Nat) (evs : List AcceptEvent) : AcceptResult :=
  sockAcceptGo maxC 0 [] [] evs

/-- State of a TCPServer as touched by SockClose: the listening
descriptor, the accepting flag, whether the accept thread is joinable
(a std::thread can be joined exactly once), the client descriptor and
address vectors, and the accumulated log lines. -/
structure ServerState : Type where
  fd_socket_server : Int
  fd_f_accepting : Bool
  joinable : Bool
  rg_fd_socket_client : List Int
  rg_sockaddr_client : List Nat
  logs : List String
deriving DecidableEq, Repr

/-- Warnings SockClose emits for one client descriptor, given the
oracle of which shutdown and close syscalls fail: each failure is
logged, never thrown. -/
def closeClientLogs (shutFail closeFail : Int → Bool) (fd : Int) : List String :=
  if fd ≠ -1 then
    (if shutFail fd then ["Shutting down client socket failed"] else []) ++
    (if closeFail fd then ["Closing client socket failed"] else [])
  else []

/-- Warnings SockClose emits for the listening descriptor, with the
server wording of the source. -/
def closeServerLogs (shutFail closeFail : Int → Bool) (fd : Int) : List String :=
  if fd ≠ -1 then
    (if shutFail fd then ["Shutting down server socket failed"] else []) ++
    (if closeFail fd then ["Closing server socket failed"] else [])
  else []

/-- TCPServer SockClose: clears fd_f_accepting_, then joins the accept
thread — std::thread join on a thread that is not joinable (already
joined, or never started) throws std::system_error, modelled as the
error branch — then shuts down and closes every client descriptor and
the server descriptor, logging each syscall failure, clears the client
descriptor vector (the address vector is left untouched by the source)
and resets the server descriptor sentinel. -/
def TCPServer.SockClose (shutFail closeFail : Int → Bool)
    (s : ServerState) : Except String ServerState :=
  if s.joinable = false then
    Except.error "std::system_error raised by thread join"
  else
    let clientLogs :=
      s.rg_fd_socket_client.foldl
        (fun ls fd => ls ++ closeClientLogs shutFail closeFail fd) []
    let serverLogs := closeServerLogs shutFail closeFail s.fd_socket_server
    Except.ok
      { fd_socket_server := -1
        fd_f_accepting := false
        joinable := false
        rg_fd_socket_client := []
        rg_sockaddr_client := s.rg_sockaddr_client
        logs := s.logs ++ clientLogs ++ serverLogs }

/-- Oracle under which no shutdown or close syscall fails. -/
def noFail : Int → Bool := fun _ => false

/- ============================ Helper lemmas ============================ -/

/-- Unfolding lemma for totalPushes on a cons. -/
lemma totalPushes_cons {α : Type} (b : List α) (bs : List (List α)) :
    totalPushes (b :: bs) = b.length + totalPushes bs := by
  simp [totalPushes]

/-- Any value the while-loop sizeWait returns is the length of the
queue it observed, is at least the requested size, and is bounded by
the initial length plus all pushes delivered. -/
lemma sizeWaitW_some {α : Type} :
    ∀ (bs : List (List α)) (n : Nat) (q : List α) (m : Nat) (qf : List α),
      QueueThreadSafeExt.sizeWaitW n q bs = some (m, qf) →
      m = qf.length ∧ n ≤ m ∧ qf.length ≤ q.length + totalPushes bs := by
  intro bs
  induction bs with
  | nil =>
    intro n q m qf h
    by_cases hlt : q.length < n
    · simp [QueueThreadSafeExt.sizeWaitW, hlt] at h
    · simp [QueueThreadSafeExt.sizeWaitW, hlt] at h
      obtain ⟨hm, hq⟩ := h
      subst hm; subst hq
      exact ⟨rfl, by omega, by simp [totalPushes]⟩
  | cons b rest ih =>
    intro n q m qf h
    by_cases hlt : q.length < n
    · simp only [QueueThreadSafeExt.sizeWaitW, if_pos hlt] at h
      have h2 := ih n (q ++ b) m qf h
      simp only [List.length_append] at h2
      rw [totalPushes_cons]
      exact ⟨h2.1, h2.2.1, by omega⟩
    · simp only [QueueThreadSafeExt.sizeWaitW, if_neg hlt] at h
      obtain ⟨hm, hq⟩ := (by simpa using h : q.length = m ∧ q = qf)
      subst hm; subst hq
      exact ⟨rfl, by omega, by omega⟩

/-- Same bounds for the do-while sizeWait variant. -/
lemma sizeWaitDo_some {α : Type} :
    ∀ (bs : List (List α)) (n : Nat) (q : List α) (m : Nat) (qf : List α),
      QueueThreadSafeExt.sizeWaitDo n q bs = some (m, qf) →
      m = qf.length ∧ n ≤ m ∧ qf.length ≤ q.length + totalPushes bs := by
  intro bs
  induction bs with
  | nil =>
    intro n q m qf h
    simp [QueueThreadSafeExt.sizeWaitDo] at h
  | cons b rest ih =>
    intro n q m qf h
    by_cases hlt : (q ++ b).length < n
    · simp only [QueueThreadSafeExt.sizeWaitDo, if_pos hlt] at h
      have h2 := ih n (q ++ b) m qf h
      simp only [List.length_append] at h2
      rw [totalPushes_cons]
      exact ⟨h2.1, h2.2.1, by omega⟩
    · simp only [QueueThreadSafeExt.sizeWaitDo, if_neg hlt] at h
      obtain ⟨hm, hq⟩ := (by simpa using h : (q ++ b).length = m ∧ q ++ b = qf)
      subst hm; subst hq
      rw [totalPushes_cons]
      simp only [List.length_append] at hlt ⊢
      exact ⟨by simp, by omega, by omega⟩

/- ============================ Claim theorems =========================== -/

/-- C5: sizeWait(n) returns only when the queue size is at least n; on
an empty queue it stays blocked while fewer than n pushes have been
delivered, and the value it returns is the queue size observed at wake
time, which is at least n.  Proved for both source copies of the
method: the while-loop variant of
src/common/thread_safe_container/QueueThreadSafeExt.hpp and the
do-while variant of src/thread_safe_container/QueueThreadSafeExt.hpp. -/
theorem c5_sizeWait_blocks_until_n :
    ∀ (n : Nat) (bs : List (List Nat)) (m : Nat) (qf : List Nat),
      (totalPushes bs < n → QueueThreadSafeExt.sizeWaitW n [] bs = none) ∧
      (QueueThreadSafeExt.sizeWaitW n [] bs = some (m, qf) →
        m = qf.length ∧ n ≤ m) ∧
      (totalPushes bs < n → QueueThreadSafeExt.sizeWaitDo n [] bs = none) ∧
      (QueueThreadSafeExt.sizeWaitDo n [] bs = some (m, qf) →
        m = qf.length ∧ n ≤ m) := by
  intro n bs m qf
  refine ⟨?_, ?_, ?_, ?_⟩
  · intro hlt
    cases h : QueueThreadSafeExt.sizeWaitW n ([] : List Nat) bs with
    | none => rfl
    | some p =>
      obtain ⟨m2, qf2⟩ := p
      have h2 := sizeWaitW_some bs n [] m2 qf2 h
      simp only [List.length_nil] at h2
      omega
  · intro h
    have h2 := sizeWaitW_some bs n [] m qf h
    exact ⟨h2.1, h2.2.1⟩
  · intro hlt
    cases h : QueueThreadSafeExt.sizeWaitDo n ([] : List Nat) bs with
    | none => rfl
    | some p =>
      obtain ⟨m2, qf2⟩ := p
      have h2 := sizeWaitDo_some bs n [] m2 qf2 h
      simp only [List.length_nil] at h2
      omega
  · intro h
    have h2 := sizeWaitDo_some bs n [] m qf h
    exact ⟨h2.1, h2.2.1⟩

/-- Witness for C5: with two elements requested, a single push leaves
both sizeWait variants blocked; after three pushes both return size 3,
which is the observed queue length and at least 2. -/
theorem c5_sizeWait_witness :
    (QueueThreadSafeExt.sizeWaitW 2 ([] : List Nat) [[5]] = none) ∧
    (3 = ([5, 6, 7] : List Nat).length ∧ 2 ≤ 3) ∧
    (QueueThreadSafeExt.sizeWaitDo 2 ([] : List Nat) [[5]] = none) ∧
    (3 = ([5, 6, 7] : List Nat).length ∧ 2 ≤ 3) := by
  refine ⟨?_, ?_, ?_, ?_⟩
  · exact (c5_sizeWait_blocks_until_n 2 [[5]] 0 []).1 (by decide)
  · exact (c5_sizeWait_blocks_until_n 2 [[5], [6, 7]] 3 [5, 6, 7]).2.1 (by decide)
  · exact (c5_sizeWait_blocks_until_n 2 [[5]] 0 []).2.2.1 (by decide)
  · exact (c5_sizeWait_blocks_until_n 2 [[5], [6, 7]] 3 [5, 6, 7]).2.2.2 (by decide)

/-- C6: frontAndPop on a non-empty queue returns the oldest element and
leaves the queue minus that head; and because its whole body runs under
one guard acquisition, two concurrent callers serialize, so in either
interleaving the two calls return the first two elements (each exactly
once) and leave the rest: no element is returned twice and none is
lost. -/
theorem c6_frontAndPop_atomic :
    ∀ (x y : Nat) (t : List Nat) (aFirst : Bool),
      QueueThreadSafeExt.frontAndPop (x :: t) = some (x, t) ∧
      runTwoFAP (x :: y :: t) aFirst =
        (if aFirst then (some x, some y, t) else (some y, some x, t)) := by
  intro x y t aFirst
  constructor
  · rfl
  · cases aFirst <;> rfl

/-- C10: front, back, pop and frontAndPop perform no emptiness check:
on the empty queue they reach the undefined-behaviour branch of the
underlying container (none, with no queue-level error), and on any
non-empty queue they act on the head (or last) element, so callers must
establish size at least 1 beforehand. -/
theorem c10_no_emptiness_check :
    ∀ (x : Nat) (q : List Nat),
      QueueThreadSafe.front ([] : List Nat) = none ∧
      QueueThreadSafe.back ([] : List Nat) = none ∧
      QueueThreadSafe.pop ([] : List Nat) = none ∧
      QueueThreadSafeExt.frontAndPop ([] : List Nat) = none ∧
      QueueThreadSafe.front (x :: q) = some x ∧
      (QueueThreadSafe.back (x :: q)).isSome = true ∧
      QueueThreadSafe.pop (x :: q) = some q ∧
      QueueThreadSafeExt.frontAndPop (x :: q) = some (x, q) := by
  intro x q
  refine ⟨rfl, rfl, rfl, rfl, rfl, ?_, rfl, rfl⟩
  simp [QueueThreadSafe.back, stdQueueBack]

/-- Every timeval the send retry loop hands to select is rebuilt from
the one original timeout value, on every iteration. -/
lemma sendGo_sel_const (cbLast us : Nat) :
    ∀ (evs : List XferEvent) (cb : Nat) (p : Nat × Nat),
      p ∈ (sendGo cbLast us cb evs).selArgs → p = tvOf us := by
  intro evs
  induction evs with
  | nil =>
    intro cb p hp
    by_cases h1 : cb < cbLast <;> simp [sendGo, h1] at hp
  | cons e rest ih =>
    intro cb p hp
    obtain ⟨res, sel⟩ := e
    by_cases h1 : cb < cbLast
    · cases res with
      | err => simp [sendGo, h1] at hp
      | ok n =>
        by_cases h2 : cb + n < cbLast
        · cases sel with
          | timeout => simpa [sendGo, h1, h2] using hp
          | selErr => simpa [sendGo, h1, h2] using hp
          | ready =>
            simp only [sendGo, if_pos h1, if_pos h2, List.mem_cons] at hp
            rcases hp with h | h
            · exact h
            · exact ih (cb + n) p h
        · simp [sendGo, h1, h2] at hp
    · simp [sendGo, h1] at hp

/-- Every timeval the recv retry loop hands to select is rebuilt from
the one original timeout value, on every iteration. -/
lemma recvGo_sel_const (cbLast us : Nat) :
    ∀ (evs : List XferEvent) (cb : Nat) (p : Nat × Nat),
      p ∈ (recvGo cbLast us cb evs).selArgs → p = tvOf us := by
  intro evs
  induction evs with
  | nil =>
    intro cb p hp
    by_cases h1 : cb < cbLast <;> simp [recvGo, h1] at hp
  | cons e rest ih =>
    intro cb p hp
    obtain ⟨res, sel⟩ := e
    by_cases h1 : cb < cbLast
    · cases res with
      | err => simp [recvGo, h1] at hp
      | ok n =>
        by_cases h2 : cb + n < cbLast
        · cases sel with
          | timeout => simpa [recvGo, h1, h2] using hp
          | selErr => simpa [recvGo, h1, h2] using hp
          | ready =>
            simp only [recvGo, if_pos h1, if_pos h2, List.mem_cons] at hp
            rcases hp with h | h
            · exact h
            · exact ih (cb + n) p h
        · simp [recvGo, h1, h2] at hp
    · simp [recvGo, h1] at hp

/-- The broadcast send loop only ever records timevals built from the
original timeout. -/
lemma serverSendClients_sel_const (cbLast us : Nat) :
    ∀ (cls : List Int) (evss : List (List XferEvent)) (p : Nat × Nat),
      p ∈ (serverSendClients cbLast us cls evss).selArgs → p = tvOf us := by
  intro cls
  induction cls with
  | nil => intro evss p hp; simp [serverSendClients] at hp
  | cons c cls ih =>
    intro evss p hp
    by_cases h1 : (sendGo cbLast us 0 (evss.headD [])).outcome = XferOutcome.ok
    · simp only [serverSendClients, if_pos h1, List.mem_append] at hp
      rcases hp with h | h
      · exact sendGo_sel_const cbLast us _ _ p h
      · exact ih evss.tail p h
    · simp only [serverSendClients, if_neg h1] at hp
      exact sendGo_sel_const cbLast us _ _ p hp

/-- The broadcast recv loop only ever records timevals built from the
original timeout. -/
lemma serverRecvClients_sel_const (cbT us : Nat) :
    ∀ (cls : List Int) (evss : List (List XferEvent)) (p : Nat × Nat),
      p ∈ (serverRecvClients cbT us cls evss).selArgs → p = tvOf us := by
  intro cls
  induction cls with
  | nil => intro evss p hp; simp [serverRecvClients] at hp
  | cons c cls ih =>
    intro evss p hp
    by_cases h1 : (recvGo cbT us 0 (evss.headD [])).outcome = XferOutcome.ok
    · simp only [serverRecvClients, if_pos h1, List.mem_append] at hp
      rcases hp with h | h
      · exact recvGo_sel_const cbT us _ _ p h
      · exact ih evss.tail p h
    · simp only [serverRecvClients, if_neg h1] at hp
      exact recvGo_sel_const cbT us _ _ p hp

/-- C8: in every send and receive retry loop of client and server,
each readiness wait after a short transfer is invoked with the timeval
rebuilt from the same original deadline value, never a countdown of the
remaining time: every recorded select argument equals tvOf us. -/
theorem c8_same_deadline_every_wait :
    ∀ (f_connected : Bool) (fd : Int) (cbLast cbT us : Nat)
      (evs : List XferEvent) (cls : List Int)
      (evss : List (List XferEvent)) (p : Nat × Nat),
      (p ∈ (TCPClient.SockSend f_connected cbLast us evs).selArgs →
        p = tvOf us) ∧
      (p ∈ (TCPClient.SockRecv f_connected cbLast us evs).selArgs →
        p = tvOf us) ∧
      (p ∈ (TCPServer.SockSend fd cls cbLast us evss).selArgs →
        p = tvOf us) ∧
      (p ∈ (TCPServer.SockRecv fd cls cbT us evss).selArgs →
        p = tvOf us) := by
  intro f_connected fd cbLast cbT us evs cls evss p
  refine ⟨?_, ?_, ?_, ?_⟩
  · intro hp
    by_cases hc : f_connected = false
    · simp [TCPClient.SockSend, hc] at hp
    · simp only [TCPClient.SockSend, if_neg hc] at hp
      exact sendGo_sel_const cbLast us evs 0 p hp
  · intro hp
    by_cases hc : f_connected = false
    · simp [TCPClient.SockRecv, hc] at hp
    · simp only [TCPClient.SockRecv, if_neg hc] at hp
      exact recvGo_sel_const cbLast us evs 0 p hp
  · intro hp
    by_cases hfd : fd = -1
    · simp [TCPServer.SockSend, hfd] at hp
    · by_cases hn : cls.length = 0
      · simp [TCPServer.SockSend, hfd, hn] at hp
      · simp only [TCPServer.SockSend, if_neg hfd, if_neg hn] at hp
        exact serverSendClients_sel_const cbLast us cls evss p hp
  · intro hp
    by_cases hfd : fd = -1
    · simp [TCPServer.SockRecv, hfd] at hp
    · by_cases hn : cls.length = 0
      · simp [TCPServer.SockRecv, hfd, hn] at hp
      · simp only [TCPServer.SockRecv, if_neg hfd, if_neg hn] at hp
        exact serverRecvClients_sel_const cbT us cls evss p hp

/-- Witness for C8: a 1.5 second deadline gives the timeval pair one
second and five hundred thousand microseconds at each recorded wait of
each of the four loops, applied at a run with one short transfer. -/
theorem c8_same_deadline_witness :
    (((1, 500000) : Nat × Nat) = tvOf 1500000) ∧
    (((1, 500000) : Nat × Nat) = tvOf 1500000) ∧
    (((1, 500000) : Nat × Nat) = tvOf 1500000) ∧
    (((1, 500000) : Nat × Nat) = tvOf 1500000) := by
  have h := c8_same_deadline_every_wait true 3 3 3 1500000
    [⟨.ok 1, .ready⟩, ⟨.ok 2, .ready⟩] [7]
    [[⟨.ok 1, .ready⟩, ⟨.ok 2, .ready⟩]] (1, 500000)
  exact ⟨h.1 (by decide), h.2.1 (by decide), h.2.2.1 (by decide),
    h.2.2.2 (by decide)⟩

/-- Invariant of the accept loop: the counter never decreases, both
client vectors grow in lockstep with the counter, and on loop exit the
counter is either at most the cap plus one or unchanged. -/
lemma sockAcceptGo_spec :
    ∀ (evs : List AcceptEvent) (maxC c : Nat) (cls : List Int)
      (ads : List Nat),
      c ≤ (sockAcceptGo maxC c cls ads evs).cClient ∧
      (sockAcceptGo maxC c cls ads evs).clients.length + c =
        cls.length + (sockAcceptGo maxC c cls ads evs).cClient ∧
      (sockAcceptGo maxC c cls ads evs).addrs.length + c =
        ads.length + (sockAcceptGo maxC c cls ads evs).cClient ∧
      ((sockAcceptGo maxC c cls ads evs).cClient ≤ maxC + 1 ∨
        (sockAcceptGo maxC c cls ads evs).cClient = c) := by
  intro evs
  induction evs with
  | nil =>
    intro maxC c cls ads
    by_cases h : c ≤ maxC <;> simp [sockAcceptGo, h]
  | cons e rest ih =>
    intro maxC c cls ads
    by_cases h : c ≤ maxC
    · cases e with
      | flagCleared => simp [sockAcceptGo, h]
      | conn fdc a =>
        have h2 := ih maxC (c + 1) (cls ++ [fdc]) (ads ++ [a])
        simp only [sockAcceptGo, if_pos h]
        simp only [List.length_append, List.length_singleton] at h2
        refine ⟨by omega, by omega, by omega, ?_⟩
        rcases h2.2.2.2 with h3 | h3
        · exact Or.inl h3
        · exact Or.inl (by omega)
      | selTimeout => simp [sockAcceptGo, h]
      | selErr => simp [sockAcceptGo, h]
      | accErr => simp [sockAcceptGo, h]
    · simp [sockAcceptGo, h]

/-- C1 (evaluation at the failing input): the recv retry loops count a
recv return of 0 bytes as ordinary zero-length progress.  With 4 bytes
still expected and the peer performing an orderly shutdown (recv gives
0), the client loop surfaces the plain timeout error when select then
times out, and keeps running through further zero-byte rounds while
select reports ready; the server per-peer recv loop behaves the same.
The outcome type, built from the throw sites of the source, has no
peer-closed constructor at all. -/
theorem c1_recv_zero_surfaces_timeout :
    TCPClient.SockRecv true 4 1500000 [⟨.ok 0, .timeout⟩] =
      ⟨.timedOut, 1, [(1, 500000)]⟩ ∧
    TCPClient.SockRecv true 4 1500000 [⟨.ok 0, .ready⟩, ⟨.ok 0, .ready⟩] =
      ⟨.blocked, 2, [(1, 500000), (1, 500000)]⟩ ∧
    TCPServer.SockRecv 3 [7] 4 1500000 [[⟨.ok 0, .timeout⟩]] =
      ⟨.timedOut, 1, [(1, 500000)], []⟩ := by
  exact ⟨rfl, rfl, rfl⟩

/-- C2 (evaluation at the failing input): the accept loop runs while
c_client is less than OR EQUAL to the cap, so with a cap of 2 it
accepts a third pending connection before stopping, and with the
source constant kCClientLast = 12 it accepts 13. -/
theorem c2_accept_loop_off_by_one :
    TCPServer.SockAccept 2
        [AcceptEvent.conn 4 40, AcceptEvent.conn 5 41, AcceptEvent.conn 6 42] =
      ⟨[4, 5, 6], [40, 41, 42], 3, .finished, false⟩ ∧
    (TCPServer.SockAccept kCClientLast
        (List.replicate 13 (AcceptEvent.conn 7 70))).clients.length = 13 := by
  exact ⟨rfl, rfl⟩

/-- C3 counterexample: TCPServer SockRecv called after a successful
listen with zero connected peers does NOT fail: it logs the no-clients
warning and returns with the ok outcome, exactly like SockSend. -/
theorem c3_zero_peer_recv_no_error :
    TCPServer.SockRecv 3 [] 4 1000 [] =
      ⟨.ok, 0, [], ["SockRecv() called with no clients!"]⟩ := by
  rfl

/-- C3 amended: with zero connected peers, SockSend and SockRecv behave
symmetrically after a successful listen: each logs its own no-clients
warning and returns without error and without touching any
descriptor. -/
theorem c3_zero_peer_send_recv_symmetric :
    ∀ (fd : Int), fd ≠ -1 →
      ∀ (cbLast cbT us : Nat) (evss : List (List XferEvent)),
        TCPServer.SockSend fd [] cbLast us evss =
          ⟨.ok, 0, [], ["SockSend() called with no clients!"]⟩ ∧
        TCPServer.SockRecv fd [] cbT us evss =
          ⟨.ok, 0, [], ["SockRecv() called with no clients!"]⟩ := by
  intro fd hfd cbLast cbT us evss
  constructor
  · simp [TCPServer.SockSend, hfd]
  · simp [TCPServer.SockRecv, hfd]

/-- Witness for the amended C3 at descriptor 3. -/
theorem c3_zero_peer_witness :
    TCPServer.SockSend 3 [] 4 1000 [] =
      ⟨.ok, 0, [], ["SockSend() called with no clients!"]⟩ ∧
    TCPServer.SockRecv 3 [] 4 1000 [] =
      ⟨.ok, 0, [], ["SockRecv() called with no clients!"]⟩ :=
  c3_zero_peer_send_recv_symmetric 3 (by decide) 4 4 1000 []

/-- C4 (evaluation at the failing input): the first SockClose on a
listening server with zero peers succeeds and leaves the peer list
empty, but a second SockClose raises, because the source joins the
accept thread unconditionally and a std::thread can only be joined
once. -/
theorem c4_double_close_raises :
    TCPServer.SockClose noFail noFail ⟨3, false, true, [], [], []⟩ =
      Except.ok ⟨-1, false, false, [], [], []⟩ ∧
    TCPServer.SockClose noFail noFail ⟨-1, false, false, [], [], []⟩ =
      Except.error "std::system_error raised by thread join" := by
  exact ⟨rfl, rfl⟩

/-- C7 counterexample: the claimed invariant fails twice.  SockClose on
a server with one peer clears the descriptor vector but not the
address vector, so their lengths differ afterwards; and a full accept
run grows both vectors to 13 entries, exceeding the cap
kCClientLast = 12. -/
theorem c7_invariant_violated :
    TCPServer.SockClose noFail noFail ⟨3, false, true, [7], [70], []⟩ =
      Except.ok ⟨-1, false, false, [], [70], []⟩ ∧
    ¬(([] : List Int).length = ([70] : List Nat).length) ∧
    (TCPServer.SockAccept kCClientLast
        (List.replicate 13 (AcceptEvent.conn 7 70))).clients.length = 13 ∧
    ¬((TCPServer.SockAccept kCClientLast
        (List.replicate 13 (AcceptEvent.conn 7 70))).clients.length ≤
      kCClientLast) := by
  exact ⟨rfl, by decide, rfl, by decide⟩

/-- C7 amended: the accept loop appends descriptor and address in
lockstep, so the two vectors always have equal length, bounded by the
cap plus one (not the cap); SockClose, when the accept thread is still
joinable, empties the descriptor vector but leaves the address vector
untouched, so the equal-length alignment survives close only for a
server that had no peers. -/
theorem c7_alignment_within_accept :
    ∀ (maxC : Nat) (evs : List AcceptEvent)
      (shutFail closeFail : Int → Bool) (s : ServerState),
      ((TCPServer.SockAccept maxC evs).clients.length =
        (TCPServer.SockAccept maxC evs).addrs.length) ∧
      ((TCPServer.SockAccept maxC evs).clients.length ≤ maxC + 1) ∧
      (s.joinable = true →
        ∃ s2, TCPServer.SockClose shutFail closeFail s = Except.ok s2 ∧
          s2.rg_fd_socket_client = [] ∧
          s2.rg_sockaddr_client = s.rg_sockaddr_client) := by
  intro maxC evs shutFail closeFail s
  have h := sockAcceptGo_spec evs maxC 0 [] []
  simp only [List.length_nil] at h
  obtain ⟨h1, h2, h3, h4⟩ := h
  refine ⟨?_, ?_, ?_⟩
  · unfold TCPServer.SockAccept
    omega
  · unfold TCPServer.SockAccept
    rcases h4 with h4 | h4 <;> omega
  · intro hj
    simp only [TCPServer.SockClose, hj]
    exact ⟨_, rfl, rfl, rfl⟩

/-- Witness for the amended C7: one accepted connection keeps the two
vectors aligned within the cap bound, and closing a one-peer server
empties the descriptor vector while the address vector keeps its
single entry. -/
theorem c7_alignment_witness :
    ((TCPServer.SockAccept 2 [AcceptEvent.conn 4 40]).clients.length =
      (TCPServer.SockAccept 2 [AcceptEvent.conn 4 40]).addrs.length) ∧
    ((TCPServer.SockAccept 2 [AcceptEvent.conn 4 40]).clients.length ≤ 3) ∧
    (∃ s2, TCPServer.SockClose noFail noFail ⟨3, false, true, [7], [70], []⟩ =
        Except.ok s2 ∧
      s2.rg_fd_socket_client = [] ∧ s2.rg_sockaddr_client = [70]) := by
  have h := c7_alignment_within_accept 2 [AcceptEvent.conn 4 40]
    noFail noFail ⟨3, false, true, [7], [70], []⟩
  exact ⟨h.1, h.2.1, h.2.2 rfl⟩

/-- C9: a send or receive method called before a connection is
established fails fast and performs no descriptor I/O: the client
methods with the connected flag unset return the
called-before-connection error with zero syscalls and no waits, and
the server methods with the sentinel listening descriptor return the
called-before-listen error likewise. -/
theorem c9_fail_fast_before_connection :
    ∀ (cbLast cbT us : Nat) (evs : List XferEvent) (cls : List Int)
      (evss : List (List XferEvent)),
      TCPClient.SockSend false cbLast us evs = ⟨.notConnected, 0, []⟩ ∧
      TCPClient.SockRecv false cbLast us evs = ⟨.notConnected, 0, []⟩ ∧
      TCPServer.SockSend (-1) cls cbLast us evss =
        ⟨.notListening, 0, [], []⟩ ∧
      TCPServer.SockRecv (-1) cls cbT us evss =
        ⟨.notListening, 0, [], []⟩ := by
  intro cbLast cbT us evs cls evss
  exact ⟨rfl, rfl, rfl, rfl⟩
